import Mathlib

/-
Verification development for the Vision Event Engine core:
provider abstraction (gemini.provider.ts, openai.provider.ts,
paddle.provider.ts), strategy orchestrator (provider.service.ts,
ProviderService) and subprocess supervisor (model.service.ts,
ModelService).  The TypeScript sources are shallowly embedded as
executable Lean definitions; network and process effects are made
explicit as oracle parameters (outcomes of fetch calls, health probes,
poll loops), and each claim about the system is settled as a theorem
over these definitions.
-/

/-- Left curly brace character, written by code point. -/
def lcurly : Char := Char.ofNat 123

/-- Right curly brace character, written by code point. -/
def rcurly : Char := Char.ofNat 125

/-- Decides whether pat is a prefix of s (character lists). -/
def prefixOf : List Char → List Char → Bool
  | [], _ => true
  | _ :: _, [] => false
  | p :: ps, c :: cs => p = c && prefixOf ps cs

/-- Decides whether pat occurs as a contiguous substring of s, as JS
String.prototype.includes does. -/
def substrOf : List Char → List Char → Bool
  | pat, [] => prefixOf pat []
  | pat, c :: cs => prefixOf pat (c :: cs) || substrOf pat cs

/-- JS s.includes(pat) over Lean strings. -/
def strContains (s pat : String) : Bool := substrOf pat.data s.data

/-- Removal of the first occurrence of pat from s, embedding the JS
call s.replace(pat, "") with a plain-string pattern. -/
def removeFirstAux : List Char → List Char → List Char
  | _, [] => []
  | pat, c :: cs =>
    if prefixOf pat (c :: cs) then (c :: cs).drop pat.length
    else c :: removeFirstAux pat cs

/-- JS s.replace(pat, "") for a plain-string pattern: removes the first
occurrence only. -/
def removeFirstStr (s pat : String) : String := String.mk (removeFirstAux pat.data s.data)

/-- JS s.trim: leading and trailing whitespace removed.  Implemented
structurally over the character list; the whitespace set (space, tab,
newline, carriage return and the other unicode blanks of
Char.isWhitespace) matches the JS behavior on the ASCII content these
streams carry. -/
def jsTrim (s : String) : String :=
  String.mk (((s.data.dropWhile Char.isWhitespace).reverse.dropWhile
    Char.isWhitespace).reverse)

/-- JS s.startsWith(pat). -/
def strStartsWith (s pat : String) : Bool := prefixOf pat.data s.data

/-- Split on the newline character, embedding JS s.split with the
one-character separator: every piece is kept, including empty ones, and
the empty string yields one empty piece. -/
def splitNlAux : List Char → List Char → List String
  | [], acc => [String.mk acc.reverse]
  | c :: cs, acc =>
    if c = '
' then String.mk acc.reverse :: splitNlAux cs []
    else splitNlAux cs (c :: acc)

/-- JS s.split on a newline separator. -/
def splitNl (s : String) : List String := splitNlAux s.data []

/-- Chunked line reassembly shared by the streaming providers
(gemini.provider.ts lines 70-72, openai.provider.ts lines 88-90):
append each chunk to the line buffer, split on newline, emit all
complete lines and keep the final fragment in the buffer.  Returns the
emitted lines and the final unprocessed fragment (which the source
discards when the stream ends). -/
def feedChunks (chunks : List String) : List String × String :=
  chunks.foldl
    (fun acc chunk =>
      let parts := splitNl (acc.2 ++ chunk)
      (acc.1 ++ parts.dropLast, parts.getLastD (""))) ([], "")

/-- JSON values as produced by JSON.parse.  Numbers are kept in exact
decimal form as mant times ten to the exp10, which represents every
literal the embedded flows exchange without floating-point rounding. -/
inductive Json where
  | null : Json
  | bool (b : Bool) : Json
  | num (mant : Int) (exp10 : Int) : Json
  | str (s : String) : Json
  | arr (elems : List Json) : Json
  | obj (fields : List (String × Json)) : Json

/-- Field lookup on a parsed JSON object, embedding JS property access:
with duplicate keys, JSON.parse keeps the last occurrence, so the last
binding wins. -/
def objGet : List (String × Json) → String → Option Json
  | [], _ => none
  | (k, v) :: fs, key =>
    match objGet fs key with
    | some w => some w
    | none => if k = key then some v else none

/-- JS j.key on a JSON value: defined only on objects. -/
def jGet (j : Json) (key : String) : Option Json :=
  match j with
  | Json.obj fs => objGet fs key
  | _ => none

/-- JS j[i] on a JSON value: defined only on arrays. -/
def jIdx (j : Json) (n : Nat) : Option Json :=
  match j with
  | Json.arr xs => xs[n]?
  | _ => none

/-- Coercion pattern (x || "") applied to an optional JSON field: a
string value passes through and anything absent yields the empty
string.  The flows embedded here only ever place strings in these
fields, so the JS truthiness coercion coincides with this function. -/
def strOrEmpty (o : Option Json) : String :=
  match o with
  | some (Json.str s) => s
  | _ => ""

/-- Whitespace skipping for the JSON grammar (space, tab, newline,
carriage return, exactly the set JSON.parse accepts). -/
def skipWs : List Char → List Char
  | [] => []
  | c :: rest =>
    if c = ' ' ∨ c = '\n' ∨ c = '\t' ∨ c = '\r' then skipWs rest else c :: rest

/-- Hexadecimal digit value for unicode escapes. -/
def hexVal (c : Char) : Option Nat :=
  if c.isDigit then some (c.toNat - 48)
  else if 97 ≤ c.toNat ∧ c.toNat ≤ 102 then some (c.toNat - 87)
  else if 65 ≤ c.toNat ∧ c.toNat ≤ 70 then some (c.toNat - 55)
  else none

/-- Digit run accumulator: value, number of digits, remaining input. -/
def parseDigitsAux : List Char → Nat → Nat → Nat × Nat × List Char
  | [], acc, n => (acc, n, [])
  | c :: cs, acc, n =>
    if c.isDigit then parseDigitsAux cs (acc * 10 + (c.toNat - 48)) (n + 1)
    else (acc, n, c :: cs)

/-- Exponent suffix of a JSON number, combining the integer part iv,
fraction part fv of fc digits and sign into an exact decimal. -/
def parseExpPart (neg : Bool) (iv fv fc : Nat) (s : List Char) : Option (Json × List Char) :=
  let mant0 : Int := Int.ofNat (iv * 10 ^ fc + fv)
  let mant : Int := if neg then -mant0 else mant0
  match s with
  | c :: r =>
    if c = 'e' ∨ c = 'E' then
      let signed : Bool × List Char :=
        match r with
        | '+' :: r2 => (false, r2)
        | '-' :: r2 => (true, r2)
        | _ => (false, r)
      let (ev, ec, r2) := parseDigitsAux signed.2 0 0
      if ec = 0 then none
      else
        some (Json.num mant ((if signed.1 then -(Int.ofNat ev) else Int.ofNat ev) - Int.ofNat fc), r2)
    else some (Json.num mant (-(Int.ofNat fc)), c :: r)
  | [] => some (Json.num mant (-(Int.ofNat fc)), [])

/-- JSON number literal. -/
def parseNumber (s : List Char) : Option (Json × List Char) :=
  let signed : Bool × List Char :=
    match s with
    | '-' :: r => (true, r)
    | _ => (false, s)
  let (iv, ic, s2) := parseDigitsAux signed.2 0 0
  if ic = 0 then none
  else
    match s2 with
    | '.' :: r =>
      let (fv, fc, s3) := parseDigitsAux r 0 0
      if fc = 0 then none else parseExpPart signed.1 iv fv fc s3
    | _ => parseExpPart signed.1 iv 0 0 s2

/-- JSON string body after the opening quote, handling the standard
escape sequences; returns the content and the input after the closing
quote. -/
def parseStringChars : Nat → List Char → Option (List Char × List Char)
  | 0, _ => none
  | _ + 1, [] => none
  | fuel + 1, c :: cs =>
    if c = '"' then some ([], cs)
    else if c = '\\' then
      match cs with
      | [] => none
      | e :: cs2 =>
        if e = '"' then (parseStringChars fuel cs2).map (fun p => ('"' :: p.1, p.2))
        else if e = '\\' then (parseStringChars fuel cs2).map (fun p => ('\\' :: p.1, p.2))
        else if e = '/' then (parseStringChars fuel cs2).map (fun p => ('/' :: p.1, p.2))
        else if e = 'n' then (parseStringChars fuel cs2).map (fun p => ('\n' :: p.1, p.2))
        else if e = 't' then (parseStringChars fuel cs2).map (fun p => ('\t' :: p.1, p.2))
        else if e = 'r' then (parseStringChars fuel cs2).map (fun p => ('\r' :: p.1, p.2))
        else if e = 'b' then (parseStringChars fuel cs2).map (fun p => (Char.ofNat 8 :: p.1, p.2))
        else if e = 'f' then (parseStringChars fuel cs2).map (fun p => (Char.ofNat 12 :: p.1, p.2))
        else if e = 'u' then
          match cs2 with
          | h1 :: h2 :: h3 :: h4 :: cs3 =>
            match hexVal h1, hexVal h2, hexVal h3, hexVal h4 with
            | some a, some b, some c2, some d =>
              (parseStringChars fuel cs3).map
                (fun p => (Char.ofNat (((a * 16 + b) * 16 + c2) * 16 + d) :: p.1, p.2))
            | _, _, _, _ => none
          | _ => none
        else none
    else (parseStringChars fuel cs).map (fun p => (c :: p.1, p.2))

/-- Keyword literal such as null, true, false. -/
def expectLit (lit : List Char) (cs : List Char) (j : Json) : Option (Json × List Char) :=
  if prefixOf lit cs then some (j, cs.drop lit.length) else none

mutual

/-- Recursive-descent JSON value parser with explicit fuel, embedding
JSON.parse.  Fuel is sized generously by the caller so that it never
runs out on terminating input. -/
def parseValueAux : Nat → List Char → Option (Json × List Char)
  | 0, _ => none
  | fuel + 1, s =>
    match skipWs s with
    | [] => none
    | c :: cs =>
      if c = 'n' then expectLit ("ull").data cs Json.null
      else if c = 't' then expectLit ("rue").data cs (Json.bool true)
      else if c = 'f' then expectLit ("alse").data cs (Json.bool false)
      else if c = '"' then
        (parseStringChars fuel cs).map (fun p => (Json.str (String.mk p.1), p.2))
      else if c = '[' then
        match skipWs cs with
        | ']' :: rest => some (Json.arr [], rest)
        | s2 => (parseArrayItems fuel s2).map (fun p => (Json.arr p.1, p.2))
      else if c = lcurly then
        match skipWs cs with
        | d :: rest =>
          if d = rcurly then some (Json.obj [], rest)
          else (parseObjectItems fuel (d :: rest)).map (fun p => (Json.obj p.1, p.2))
        | [] => none
      else if c = '-' ∨ c.isDigit then parseNumber (c :: cs)
      else none

/-- Comma-separated array items up to the closing bracket. -/
def parseArrayItems : Nat → List Char → Option (List Json × List Char)
  | 0, _ => none
  | fuel + 1, s =>
    match parseValueAux fuel s with
    | none => none
    | some (j, rest) =>
      match skipWs rest with
      | ',' :: rest2 => (parseArrayItems fuel rest2).map (fun p => (j :: p.1, p.2))
      | ']' :: rest2 => some ([j], rest2)
      | _ => none

/-- Comma-separated object members up to the closing brace. -/
def parseObjectItems : Nat → List Char → Option (List (String × Json) × List Char)
  | 0, _ => none
  | fuel + 1, s =>
    match skipWs s with
    | '"' :: cs =>
      match parseStringChars fuel cs with
      | none => none
      | some (key, rest) =>
        match skipWs rest with
        | ':' :: rest2 =>
          match parseValueAux fuel rest2 with
          | none => none
          | some (v, rest3) =>
            match skipWs rest3 with
            | d :: rest4 =>
              if d = ',' then
                (parseObjectItems fuel rest4).map (fun p => ((String.mk key, v) :: p.1, p.2))
              else if d = rcurly then some ([(String.mk key, v)], rest4)
              else none
            | [] => none
        | _ => none
    | _ => none

end

/-- JSON.parse over a character list: the whole input must be consumed
up to trailing whitespace, otherwise the parse throws (here: none). -/
def jsonParseChars (cs : List Char) : Option Json :=
  match parseValueAux (cs.length * 2 + 4) cs with
  | some (j, rest) => if skipWs rest = [] then some j else none
  | none => none

/-- JSON.parse over a Lean string. -/
def jsonParse (s : String) : Option Json := jsonParseChars s.data

/-- Longest prefix of the input ending at the last occurrence of ch,
inclusive; none when ch does not occur.  This is the greedy tail of the
regex alternatives in the providers. -/
def upToLast (ch : Char) : List Char → Option (List Char)
  | [] => none
  | c :: rest =>
    match upToLast ch rest with
    | some t => some (c :: t)
    | none => if c = ch then some [c] else none

/-- JS match against the greedy brace or bracket pattern used at
gemini.provider.ts line 90 and openai.provider.ts line 118: the
leftmost position opening a curly block with a later closing curly (or
a bracket block with a later closing bracket) starts the match, which
greedily extends to the last such closer in the whole string. -/
def greedyJsonMatch : List Char → Option (List Char)
  | [] => none
  | c :: rest =>
    if c = lcurly then
      match upToLast rcurly rest with
      | some t => some (c :: t)
      | none => greedyJsonMatch rest
    else if c = '[' then
      match upToLast ']' rest with
      | some t => some (c :: t)
      | none => greedyJsonMatch rest
    else greedyJsonMatch rest

/-- Stream-end JSON recovery of the streaming providers: parse the
greedy match when one exists, otherwise parse the whole accumulated
content (JSON.parse(jsonMatch ? jsonMatch[0] : accumulatedContent)). -/
def recoverJsonChars (cs : List Char) : Option Json :=
  match greedyJsonMatch cs with
  | some m => jsonParseChars m
  | none => jsonParseChars cs

/-- Stream-end JSON recovery over a Lean string. -/
def recoverJson (s : String) : Option Json := recoverJsonChars s.data

/-- Frames of the line-delimited progress protocol (base.provider.ts
LogMessage): zero or more log frames should be followed by one final or
one error frame. -/
inductive Frame where
  | log (tag message : String) : Frame
  | error (message : String) : Frame
  | final (event : Json) : Frame

/-- Predicate selecting log frames. -/
def Frame.isLog : Frame → Bool
  | Frame.log _ _ => true
  | _ => false

/-- Predicate selecting terminal frames (final or error). -/
def Frame.isTerminal : Frame → Bool
  | Frame.log _ _ => false
  | _ => true

/-- Boolean check of the spec invariant on one frame stream: zero or
more log frames followed by exactly one terminal frame, and nothing
after it. -/
def wellFormedB : List Frame → Bool
  | [] => false
  | [t] => t.isTerminal
  | f :: rest => f.isLog && wellFormedB rest

/-- Whether any final frame occurs in the stream. -/
def hasFinal (fs : List Frame) : Bool :=
  fs.any fun f =>
    match f with
    | Frame.final _ => true
    | _ => false

/-- Normalized extraction request (base.provider.ts
ExtractionRequest). -/
structure ExtractionRequest where
  ocr_text : String
  image_context : Option String
  today_date : Option String
  base64_image : Option String
  options : List (String × Json)

/-- Provider configuration (base.provider.ts ProviderConfig). -/
structure ProviderConfig where
  baseUrl : String
  apiKey : Option String
  model : String

/-- Provider variants of the repository. -/
inductive ProviderKind where
  | gemini : ProviderKind
  | openai : ProviderKind
  | paddle : ProviderKind
deriving DecidableEq

/-- ProviderService.getProvider (provider.service.ts lines 7-15): the
PaddleOCR model identifier always selects the Paddle provider, then a
Google generative-language base URL selects Gemini, and anything else
selects the OpenAI-compatible provider. -/
def getProvider (config : ProviderConfig) : ProviderKind :=
  let isGemini := strContains config.baseUrl ("generativelanguage.googleapis.com")
  let isPaddle := config.model = "PaddleOCR-VL-1.5"
  if isPaddle then ProviderKind.paddle
  else if isGemini then ProviderKind.gemini
  else ProviderKind.openai

/-- Outcome of one non-streaming fetch call: an HTTP response with a
status and a body text, or a rejection of the fetch promise (network
error, connection refused, abort by timeout). -/
inductive HttpOutcome where
  | response (status : Nat) (body : String) : HttpOutcome
  | failure (msg : String) : HttpOutcome

/-- Outcome of one streaming fetch call: an HTTP response whose body
arrives as a list of chunks, optionally interrupted at the end by a
mid-stream read error, or a rejection of the fetch promise itself. -/
inductive HttpStreamOutcome where
  | response (status : Nat) (chunks : List String) (readError : Option String) : HttpStreamOutcome
  | failure (msg : String) : HttpStreamOutcome

/-- JS res.ok: status in the 2xx range. -/
def statusOk (status : Nat) : Bool := 200 ≤ status && status ≤ 299

/-- GeminiProvider.checkHealth (gemini.provider.ts lines 8-19): probe
the generate-content endpoint built from the config, return res.ok, and
map every rejection (network error, timeout) to false. -/
def geminiCheckHealth (_config : ProviderConfig) (o : HttpOutcome) : Bool :=
  match o with
  | HttpOutcome.response st _ => statusOk st
  | HttpOutcome.failure _ => false

/-- OpenAIProvider.checkHealth (openai.provider.ts lines 8-20): probe
the model-list endpoint, return res.ok, and map every rejection to
false. -/
def openaiCheckHealth (_config : ProviderConfig) (o : HttpOutcome) : Bool :=
  match o with
  | HttpOutcome.response st _ => statusOk st
  | HttpOutcome.failure _ => false

/-- PaddleProvider.checkHealth (paddle.provider.ts lines 10-21): probe
the bridge health endpoint; a non-2xx status yields false, a 2xx body
must parse as JSON with status equal to "ok", and every rejection
(including a body that fails to parse) yields false. -/
def paddleCheckHealth (o : HttpOutcome) : Bool :=
  match o with
  | HttpOutcome.failure _ => false
  | HttpOutcome.response st body =>
    if statusOk st then
      match jsonParse body with
      | some j =>
        match jGet j ("status") with
        | some (Json.str s) => s = "ok"
        | _ => false
      | none => false
    else false

/-- JS s.replace with the regex of one trailing slash and the empty
replacement, as used to normalize the Gemini base URL. -/
def stripTrailingSlash (s : String) : String :=
  if s.data.getLast? = some '/' then String.mk s.data.dropLast else s

/-- Gemini streaming endpoint (gemini.provider.ts line 22). -/
def geminiEndpoint (config : ProviderConfig) : String :=
  stripTrailingSlash config.baseUrl ++ "/v1beta/models/" ++ config.model
    ++ ":streamGenerateContent?alt=sse"

/-- JS Math.round(len / 1024) on a natural byte count. -/
def roundKB (len : Nat) : Nat := (len + 512) / 1024

/-- Per-line token extraction of the Gemini SSE stream
(gemini.provider.ts lines 74-84): skip blank lines and lines without
the SSE data prefix, strip the prefix, parse the JSON envelope, and
take candidates[0].content.parts[0].text when it is a nonempty string;
a parse failure or an empty token is skipped. -/
def geminiLineToken (line : String) : Option String :=
  if jsTrim line = "" then none
  else if !(strStartsWith line ("data: ")) then none
  else
    match jsonParse (jsTrim (removeFirstStr line ("data: "))) with
    | none => none
    | some j =>
      let token :=
        strOrEmpty ((((jGet j ("candidates")).bind (fun x => jIdx x 0)).bind
          (fun x => jGet x ("content"))).bind
          (fun x => (jIdx · 0) =<< jGet x ("parts")) |>.bind (fun x => jGet x ("text")))
      if token = "" then none else some token

/-- Whether the OpenAI-compatible provider is talking to a local Ollama
server (openai.provider.ts line 23): base URL mentions port 11434 or a
path containing /api. -/
def isOllamaUrl (baseUrl : String) : Bool :=
  strContains baseUrl (":11434") || strContains baseUrl ("/api")

/-- Per-line token extraction of the OpenAI-compatible stream
(openai.provider.ts lines 92-111): in Ollama mode each line is a JSON
object with the token at message.content; otherwise SSE data lines
carry the token at choices[0].delta.content and the literal DONE
sentinel ends the data; parse failures and empty tokens are skipped. -/
def openaiLineToken (isOllama : Bool) (line : String) : Option String :=
  if jsTrim line = "" then none
  else if isOllama then
    match jsonParse line with
    | none => none
    | some j =>
      let token := strOrEmpty ((jGet j ("message")).bind (fun x => jGet x ("content")))
      if token = "" then none else some token
  else if strStartsWith line ("data: ") then
    let dataStr := jsTrim (removeFirstStr line ("data: "))
    if dataStr = "[DONE]" then none
    else
      match jsonParse dataStr with
      | none => none
      | some j =>
        let token :=
          strOrEmpty (((jGet j ("choices")).bind (fun x => jIdx x 0)).bind
            (fun x => (jGet · ("content")) =<< jGet x ("delta")))
        if token = "" then none else some token
  else none

/-- Fixed stand-in for the runtime message of a JSON.parse exception;
the source relays e.message, whose exact text is runtime specific. -/
def jsonParseErrorMsg : String := "JSON Parse error: unexpected input"

/-- Tokens gathered by one streaming loop: complete lines of the chunk
stream filtered through the per-line extractor. -/
def streamTokens (extract : String → Option String) (chunks : List String) : List String :=
  (feedChunks chunks).1.filterMap extract

/-- Tail of a streaming provider body after the token loop finished
without a read error (gemini.provider.ts lines 87-99,
openai.provider.ts lines 115-127): emit the completion log, run the
JSON recovery over the accumulated content, and either save the
recovered event and emit the final frame, or emit the error frame when
recovery throws.  Returns the emitted frames and the list of events
passed to saveEvent, in order.  The completion log of the source also
interpolates a wall-clock latency figure; that segment of the message
is elided here, the character count is kept. -/
def streamFinish (accum : String) : List Frame × List Json :=
  let completeLog :=
    Frame.log "EXEC" ("[COMPLETE] " ++ toString accum.length ++ " chars decoded")
  match recoverJson accum with
  | some j => ([completeLog, Frame.final j], [j])
  | none => ([completeLog, Frame.error jsonParseErrorMsg], [])

/-- Body of the stream returned by GeminiProvider.streamExtraction
(gemini.provider.ts lines 55-102), given the 2xx body chunks and the
optional mid-stream read error: the three init log frames, one SYNTH
log frame per extracted token, then either the relayed read error or
the completion and recovery tail.  Latency figures of the source logs
are wall-clock values and are elided from the embedded messages. -/
def geminiStreamBody (config : ProviderConfig) (request : ExtractionRequest)
    (chunks : List String) (readError : Option String) : List Frame × List Json :=
  let initFrames : List Frame :=
    [Frame.log "EXEC" ("[INIT] Provider: GEMINI | Model: " ++ config.model),
     Frame.log "EXEC" ("[HTTP] POST " ++ geminiEndpoint config),
     Frame.log "EXEC" ("[PAYLOAD] image=" ++
       (match request.base64_image with
        | some img => toString (roundKB img.length) ++ "KB"
        | none => "none") ++ " | text=" ++ toString request.ocr_text.length ++ " chars")]
  let tokens := streamTokens geminiLineToken chunks
  let tokenFrames := tokens.map (fun t => Frame.log "SYNTH" t)
  match readError with
  | some m => (initFrames ++ tokenFrames ++ [Frame.error m], [])
  | none =>
    let (tail, saves) := streamFinish (String.join tokens)
    (initFrames ++ tokenFrames ++ tail, saves)

/-- GeminiProvider.streamExtraction (gemini.provider.ts lines 21-103):
the fetch happens before the stream is constructed, so a rejected fetch
propagates (error value), a non-2xx response raises the formatted
exception (gemini.provider.ts lines 46-48), and only a 2xx response
produces a frame stream. -/
def geminiStreamExtraction (config : ProviderConfig) (request : ExtractionRequest)
    (net : HttpStreamOutcome) : Except String (List Frame × List Json) :=
  match net with
  | HttpStreamOutcome.failure m => Except.error m
  | HttpStreamOutcome.response st chunks readError =>
    if statusOk st then Except.ok (geminiStreamBody config request chunks readError)
    else Except.error ("Gemini API returned " ++ toString st ++ ": " ++ String.join chunks)

/-- OpenAI-compatible endpoint selection (openai.provider.ts line
24). -/
def openaiEndpoint (config : ProviderConfig) : String :=
  if isOllamaUrl config.baseUrl then config.baseUrl ++ "/api/chat"
  else config.baseUrl ++ "/chat/completions"

/-- Body of the stream returned by OpenAIProvider.streamExtraction
(openai.provider.ts lines 74-129): two init log frames, one SYNTH log
frame per token, then the read-error relay or the completion and
recovery tail. -/
def openaiStreamBody (config : ProviderConfig) (_request : ExtractionRequest)
    (chunks : List String) (readError : Option String) : List Frame × List Json :=
  let isOllama := isOllamaUrl config.baseUrl
  let initFrames : List Frame :=
    [Frame.log "EXEC" ("[INIT] Provider: " ++ (if isOllama then "OLLAMA" else "OPENAI")
       ++ " | Model: " ++ config.model),
     Frame.log "EXEC" ("[HTTP] POST " ++ openaiEndpoint config)]
  let tokens := streamTokens (openaiLineToken isOllama) chunks
  let tokenFrames := tokens.map (fun t => Frame.log "SYNTH" t)
  match readError with
  | some m => (initFrames ++ tokenFrames ++ [Frame.error m], [])
  | none =>
    let (tail, saves) := streamFinish (String.join tokens)
    (initFrames ++ tokenFrames ++ tail, saves)

/-- OpenAIProvider.streamExtraction (openai.provider.ts lines 22-131):
same pre-stream failure behavior as the Gemini provider, with its own
exception text (openai.provider.ts lines 65-67). -/
def openaiStreamExtraction (config : ProviderConfig) (request : ExtractionRequest)
    (net : HttpStreamOutcome) : Except String (List Frame × List Json) :=
  match net with
  | HttpStreamOutcome.failure m => Except.error m
  | HttpStreamOutcome.response st chunks readError =>
    if statusOk st then Except.ok (openaiStreamBody config request chunks readError)
    else
      Except.error ("OpenAI-Compatible API returned " ++ toString st ++ ": "
        ++ String.join chunks)

/-- Tiers of the supervised PaddleOCR process (model.service.ts
PaddleTier). -/
inductive Tier where
  | eco : Tier
  | lite : Tier
  | pro : Tier
deriving DecidableEq

/-- Lowercase tier name as spawned on the command line. -/
def tierName : Tier → String
  | Tier.eco => "eco"
  | Tier.lite => "lite"
  | Tier.pro => "pro"

/-- Uppercase tier name as logged by setActiveTier. -/
def tierUpper : Tier → String
  | Tier.eco => "ECO"
  | Tier.lite => "LITE"
  | Tier.pro => "PRO"

/-- Observable state of ModelService (model.service.ts lines 94-99):
the tracked bridge process handle carrying the tier it was spawned
with, the persisted model_config.json content (none when the file is
missing), and the captured log ring buffer. -/
structure SupervisorState where
  bridgeProcess : Option Tier
  persistedTier : Option Tier
  bridgeLogs : List String

/-- Ring-buffer push of one formatted entry (model.service.ts lines
186-188): append, then evict the oldest entry when the buffer exceeds
the capacity of 100. -/
def pushLog (logs : List String) (entry : String) : List String :=
  let l := logs ++ [entry]
  if 100 < l.length then l.tail else l

/-- Supervisor-side log append of one already-formatted single-line
entry.  ModelService.addLog also strips ANSI sequences, splits multi-
line payloads and reclassifies known-benign stderr lines before
pushing; the entries pushed below are the single-line literals of the
supervisor itself, shown post-classification. -/
def svcLog (s : SupervisorState) (entry : String) : SupervisorState :=
  { s with bridgeLogs := pushLog s.bridgeLogs entry }

/-- ModelService.getStatus activeTier resolution (model.service.ts
lines 105-111): the persisted tier when the config file exists and
parses, the eco default otherwise. -/
def getStatusActiveTier (s : SupervisorState) : Tier :=
  s.persistedTier.getD Tier.eco

/-- ModelService.stop (model.service.ts lines 290-304): kill and clear
the tracked handle, then clear the listening port out of band and log
it. -/
def stopBridge (s : SupervisorState) : SupervisorState :=
  svcLog { s with bridgeProcess := none } "🛑 Bridge port 5000 cleared."

/-- Environment oracle for one ModelService.start call: whether the
pre-start health probe against an already-live process succeeds
(model.service.ts lines 235-241), how many poll iterations report a
loading status, and whether the bounded poll loop reaches a ready
status before its 300-iteration ceiling. -/
structure StartEnv where
  probeOk : Bool
  pollLoading : Nat
  pollReady : Bool

/-- ModelService.start (model.service.ts lines 234-288): if a process
handle is live and the health probe succeeds, return with no changes;
otherwise stop any existing process, resolve the tier from the
persisted config when omitted, spawn the bridge under that tier, and
run the bounded health poll loop, logging the loading progress and
either the ready confirmation or the startup timeout (the timeout is
logged, never raised).  The bounded poll loop of start
(model.service.ts lines 272-288) only appends log entries: the loading
notices and the final ready confirmation or startup timeout; it is
factored out as pollLogs. -/
def pollLogs (e : StartEnv) (st : SupervisorState) : SupervisorState :=
  let s4 := (List.range e.pollLoading).foldl
    (fun a _ => svcLog a "⏳ Bridge is loading model weights...") st
  if e.pollReady then svcLog s4 "✅ Bridge health check passed and model is ready."
  else svcLog s4 "[PADDLE_ERR] ⚠️ Bridge startup timed out after 5m"

/-- ModelService.start (model.service.ts lines 234-288): a live handle
with a passing health probe short-circuits to a no-op; otherwise stop,
resolve the tier from the persisted config when omitted, spawn, and
poll. -/
def startBridge (e : StartEnv) (tier? : Option Tier) (s : SupervisorState) : SupervisorState :=
  if s.bridgeProcess.isSome && e.probeOk then s
  else
    let s1 := stopBridge s
    let t := tier?.getD (getStatusActiveTier s1)
    let s2 := svcLog s1 ("🚀 Starting PaddleOCR Bridge [Tier: " ++ tierName t ++ "]...")
    pollLogs e { s2 with bridgeProcess := some t }

/-- ModelService.setActiveTier (model.service.ts lines 196-201):
persist the tier to the config file, log the switch, then call
start(tier); a start failure would be logged, not raised. -/
def setActiveTier (e : StartEnv) (t : Tier) (s : SupervisorState) : SupervisorState :=
  let s1 := { s with persistedTier := some t }
  let s2 := svcLog s1 ("🔄 Switching to tier: " ++ tierUpper t)
  startBridge e (some t) s2

/-- Environment oracle for one PaddleProvider.streamExtraction call:
the outcome of the entry health probe, the start environments of the
three possible ModelService calls (initial start when unhealthy, the
start inside setActiveTier, and the re-start after the tier switch),
the outcome of the bridge OCR call, and the elapsed wall-clock
milliseconds recorded in the final event. -/
structure PaddleEnv where
  healthOutcome : HttpOutcome
  startEnv1 : StartEnv
  switchStartEnv : StartEnv
  startEnv2 : StartEnv
  ocrOutcome : HttpOutcome
  elapsedMs : Nat

/-- Pre-call phase of PaddleProvider.streamExtraction
(paddle.provider.ts lines 31-50): the init log; the health probe, and
on failure the not-ready log and a supervisor start; the auto-switch
when the active tier is eco (switch log, setActiveTier to lite, settle
delay, start again); then the two OCR logs.  Returns the emitted log
frames and the updated supervisor state. -/
def paddlePrefix (env : PaddleEnv) (sv : SupervisorState) : List Frame × SupervisorState :=
  let f0 : List Frame := [Frame.log "EXEC" "[INIT] PaddleOCR Verification..."]
  let healthy := paddleCheckHealth env.healthOutcome
  let step1 : List Frame × SupervisorState :=
    if healthy then (([] : List Frame), sv)
    else ([Frame.log "EXEC" "[SYSTEM] Bridge not ready. Initializing..."],
          startBridge env.startEnv1 none sv)
  let step2 : List Frame × SupervisorState :=
    if getStatusActiveTier step1.2 = Tier.eco then
      (step1.1 ++ [Frame.log "EXEC" "[SYSTEM] VLM requires Lite tier. Switching..."],
       startBridge env.startEnv2 none (setActiveTier env.switchStartEnv Tier.lite step1.2))
    else step1
  let f3 : List Frame :=
    [Frame.log "EXEC" "[HTTP] POST http://127.0.0.1:5000/ocr",
     Frame.log "EXEC" "[LOCAL] Running OCR engine (this may take 10-20s)..."]
  (f0 ++ step2.1 ++ f3, step2.2)

/-- PaddleProvider.streamExtraction (paddle.provider.ts lines 23-88).
The whole body runs inside the stream under one try/catch, so this
function is total: it always returns the emitted frames (never a
rejection).  After the pre-call phase comes the single blocking OCR
call, whose network failure, non-2xx status or unparseable body each
raise into the catch and emit the terminal error frame; on success the
done and SYNTH logs, the saveEvent call and the final frame.  Returns
frames, updated supervisor state and saved events. -/
def paddleStreamExtraction (env : PaddleEnv) (_request : ExtractionRequest)
    (sv : SupervisorState) : List Frame × SupervisorState × List Json :=
  let pre : List Frame := (paddlePrefix env sv).1
  let sv2 : SupervisorState := (paddlePrefix env sv).2
  match env.ocrOutcome with
  | HttpOutcome.failure m => (pre ++ [Frame.error m], sv2, [])
  | HttpOutcome.response st body =>
    if statusOk st then
      match jsonParse body with
      | none => (pre ++ [Frame.error jsonParseErrorMsg], sv2, [])
      | some j =>
        let extractedText := strOrEmpty (jGet j ("result"))
        let fDone : List Frame :=
          [Frame.log "EXEC" ("[DONE] Bridge returned " ++ toString extractedText.length
             ++ " characters."),
           Frame.log "SYNTH" extractedText]
        let finalEvent := Json.obj
          [("title", Json.str "OCR Extraction"),
           ("extracted_text", Json.str extractedText),
           ("source", Json.str "PaddleOCR"),
           ("generation_time_ms", Json.num (Int.ofNat env.elapsedMs) 0)]
        (pre ++ fDone ++ [Frame.final finalEvent], sv2, [finalEvent])
    else
      (pre ++
        [Frame.error ("Paddle Bridge returned " ++ toString st ++ ": " ++ body)], sv2, [])

/-- Per-request network environment of one provider invocation: the
streaming outcome used by the cloud providers and the environment used
by the Paddle provider. -/
structure NetEnv where
  http : HttpStreamOutcome
  paddle : PaddleEnv

/-- Dispatch of streamExtraction over the provider selected by
getProvider.  The cloud providers can reject before producing a stream;
the Paddle provider always produces one. -/
def providerStream (k : ProviderKind) (config : ProviderConfig) (request : ExtractionRequest)
    (env : NetEnv) (sv : SupervisorState) :
    Except String (List Frame × List Json) × SupervisorState :=
  match k with
  | ProviderKind.gemini => (geminiStreamExtraction config request env.http, sv)
  | ProviderKind.openai => (openaiStreamExtraction config request env.http, sv)
  | ProviderKind.paddle =>
    let (fs, sv2, saves) := paddleStreamExtraction env.paddle request sv
    (Except.ok (fs, saves), sv2)

/-- Capture of the chained-mode OCR result (provider.service.ts lines
34-53): the relay loop decodes every relayed line, and each frame of
type final overwrites the captured text with its
event.extracted_text (or the empty string when absent); the initial
value is the empty string. -/
def capturedText (frames : List Frame) : String :=
  frames.foldl
    (fun acc f =>
      match f with
      | Frame.final ev => strOrEmpty (jGet ev ("extracted_text"))
      | _ => acc) ""

/-- Derived second-stage request of chained mode (provider.service.ts
lines 58-62): the original request with ocr_text replaced by the
captured text and the image field cleared. -/
def derivedRequest (request : ExtractionRequest) (ocrData : String) : ExtractionRequest :=
  { request with ocr_text := ocrData, base64_image := none }

/-- Environment of one orchestrateExtraction call: the network
environment of the direct single-provider path, and the two stage
environments of chained mode. -/
structure OrchEnv where
  direct : NetEnv
  ocr : PaddleEnv
  llm : NetEnv

/-- ProviderService.orchestrateExtraction (provider.service.ts lines
17-80).  Strategy C and the default path return the selected provider
stream unchanged (a rejection of the provider call propagates to the
caller).  Strategy B always runs a Paddle provider first, relays every
one of its frames including its terminal frame, captures the OCR text,
then unconditionally invokes the selected provider on the derived
request and relays its frames; a rejection of that second call is
caught inside the stream and appended as an error frame. -/
def orchestrateExtraction (strategy : String) (config : ProviderConfig)
    (request : ExtractionRequest) (env : OrchEnv) (sv : SupervisorState) :
    Except String (List Frame × List Json) × SupervisorState :=
  let kind := getProvider config
  if strategy = "C" then providerStream kind config request env.direct sv
  else if strategy = "B" then
    let (ocrFrames, sv1, saves1) := paddleStreamExtraction env.ocr request sv
    let ocrData := capturedText ocrFrames
    match providerStream kind config (derivedRequest request ocrData) env.llm sv1 with
    | (Except.ok (fs, saves2), sv2) => (Except.ok (ocrFrames ++ fs, saves1 ++ saves2), sv2)
    | (Except.error m, sv2) => (Except.ok (ocrFrames ++ [Frame.error m], saves1), sv2)
  else providerStream kind config request env.direct sv

/-- Frames of a stream result, empty on rejection. -/
def framesOf (r : Except String (List Frame × List Json)) : List Frame :=
  match r with
  | Except.ok (fs, _) => fs
  | Except.error _ => []

/-- Saved events of a stream result, empty on rejection. -/
def savesOf (r : Except String (List Frame × List Json)) : List Json :=
  match r with
  | Except.ok (_, saves) => saves
  | Except.error _ => []

/-- Check that a produced stream is well formed; rejections produce no
stream and pass vacuously. -/
def streamOk (r : Except String (List Frame × List Json)) : Bool :=
  match r with
  | Except.ok (fs, _) => wellFormedB fs
  | Except.error _ => true

/-- Relation between a produced stream and its saveEvent calls: a
stream ending in a final frame saves exactly that event once, a stream
ending in an error frame saves nothing, and no produced stream may lack
a terminal frame. -/
def saveContract (fs : List Frame) (saves : List Json) : Prop :=
  match fs.getLast? with
  | some (Frame.final j) => saves = [j]
  | some (Frame.error _) => saves = []
  | _ => False

/-- saveContract lifted over a stream result; rejections perform no
save and pass vacuously. -/
def saveContractRes (r : Except String (List Frame × List Json)) : Prop :=
  match r with
  | Except.ok (fs, saves) => saveContract fs saves
  | Except.error _ => True

theorem upToLast_of_not_mem {ch : Char} : ∀ {l : List Char}, ch ∉ l → upToLast ch l = none
  | [], _ => rfl
  | c :: cs, h => by
    have h1 : ch ∉ cs := fun hm => h (List.mem_cons_of_mem _ hm)
    have h2 : ¬(c = ch) := fun he => h (he ▸ List.mem_cons_self _ _)
    simp [upToLast, upToLast_of_not_mem h1, h2]

theorem upToLast_append {ch : Char} (post : List Char) (hpost : ch ∉ post) :
    ∀ xs : List Char, upToLast ch (xs ++ ch :: post) = some (xs ++ [ch])
  | [] => by simp [upToLast, upToLast_of_not_mem hpost]
  | x :: xs => by simp [upToLast, upToLast_append post hpost xs]

theorem greedyJsonMatch_embedded (mid post : List Char) (hpost : rcurly ∉ post) :
    ∀ pre : List Char, (∀ c ∈ pre, ¬(c = lcurly) ∧ ¬(c = '[')) →
      greedyJsonMatch (pre ++ (lcurly :: (mid ++ [rcurly])) ++ post)
        = some (lcurly :: (mid ++ [rcurly]))
  | [], _ => by
    have h1 : upToLast rcurly (mid ++ rcurly :: post) = some (mid ++ [rcurly]) :=
      upToLast_append post hpost mid
    simp [greedyJsonMatch, h1]
  | c :: pre, h => by
    have hc := h c (List.mem_cons_self _ _)
    have hrest : ∀ x ∈ pre, ¬(x = lcurly) ∧ ¬(x = '[') :=
      fun x hx => h x (List.mem_cons_of_mem _ hx)
    simp only [List.cons_append, greedyJsonMatch, if_neg hc.1, if_neg hc.2]
    exact greedyJsonMatch_embedded mid post hpost pre hrest

theorem recoverJsonChars_embedded (pre mid post : List Char)
    (hpre : ∀ c ∈ pre, ¬(c = lcurly) ∧ ¬(c = '['))
    (hpost : rcurly ∉ post) :
    recoverJsonChars (pre ++ (lcurly :: (mid ++ [rcurly])) ++ post)
      = jsonParseChars (lcurly :: (mid ++ [rcurly])) := by
  unfold recoverJsonChars
  rw [greedyJsonMatch_embedded mid post hpost pre hpre]

theorem drop_append_of_le {α : Type} (x l : List α) (n : Nat) (h : n ≤ x.length) :
    (x ++ l).drop n = x.drop n ++ l := by
  rw [List.drop_append_eq_append_drop]
  have h0 : n - x.length = 0 := by omega
  rw [h0, List.drop_zero]

theorem pushLog_eq_drop (s : List String) (e : String) (h : s.length ≤ 100) :
    pushLog s e = (s ++ [e]).drop (s.length + 1 - 100) := by
  unfold pushLog
  by_cases h100 : s.length = 100
  · have hc : 100 < (s ++ [e]).length := by simp [h100]
    have hd : s.length + 1 - 100 = 1 := by omega
    simp only [if_pos hc, hd, List.drop_one]
  · have hc : ¬(100 < (s ++ [e]).length) := by simp; omega
    have hd : s.length + 1 - 100 = 0 := by omega
    simp only [if_neg hc, hd, List.drop_zero]

theorem foldl_pushLog_drop : ∀ (l s : List String), s.length ≤ 100 →
    List.foldl pushLog s l = (s ++ l).drop (s.length + l.length - 100)
  | [], s, h => by
    have hd : s.length - 100 = 0 := by omega
    simp [hd]
  | e :: l, s, h => by
    have hpush := pushLog_eq_drop s e h
    have hlen : (pushLog s e).length ≤ 100 := by
      rw [hpush]; simp [List.length_drop]; omega
    rw [List.foldl_cons, foldl_pushLog_drop l (pushLog s e) hlen, hpush]
    have hd : s.length + 1 - 100 ≤ (s ++ [e]).length := by simp; omega
    have hcomm : (s ++ [e]).drop (s.length + 1 - 100) ++ l
        = ((s ++ [e]) ++ l).drop (s.length + 1 - 100) :=
      (drop_append_of_le (s ++ [e]) l (s.length + 1 - 100) hd).symm
    rw [hcomm, List.drop_drop]
    have hassoc : (s ++ [e]) ++ l = s ++ e :: l := by simp
    rw [hassoc]
    have hlen2 : ((s ++ [e]).drop (s.length + 1 - 100)).length
        = s.length + 1 - (s.length + 1 - 100) := by simp [List.length_drop]
    rw [hlen2]
    have harith : s.length + 1 - 100 + (s.length + 1 - (s.length + 1 - 100) + l.length - 100)
        = s.length + (e :: l).length - 100 := by simp [List.length_cons]; omega
    rw [harith]

theorem getLast?_append_right {α : Type} (l l' : List α) (a : α)
    (h : l'.getLast? = some a) : (l ++ l').getLast? = some a := by
  rw [List.getLast?_append, h]
  rfl

theorem wellFormedB_cons_log (f : Frame) (rest : List Frame)
    (hf : f.isLog = true) (h : wellFormedB rest = true) :
    wellFormedB (f :: rest) = true := by
  cases rest with
  | nil => simp [wellFormedB] at h
  | cons g gs => simpa [wellFormedB, hf] using h

theorem wellFormedB_logs_prepend : ∀ (ls rest : List Frame),
    (∀ f ∈ ls, f.isLog = true) → wellFormedB rest = true →
    wellFormedB (ls ++ rest) = true
  | [], _, _, h => by simpa using h
  | f :: fs, rest, hls, h => by
    have hf := hls f (List.mem_cons_self _ _)
    have hrest : ∀ g ∈ fs, g.isLog = true := fun g hg => hls g (List.mem_cons_of_mem _ hg)
    have hind := wellFormedB_logs_prepend fs rest hrest h
    simpa using wellFormedB_cons_log f (fs ++ rest) hf hind

theorem isLog_map_synth (tokens : List String) :
    ∀ f ∈ tokens.map (fun t => Frame.log "SYNTH" t), f.isLog = true := by
  intro f hf
  rcases List.mem_map.mp hf with ⟨t, _, rfl⟩
  rfl

/-- Structural contract of the shared stream tail: it is one log frame
followed by one terminal frame, its save list obeys the save contract,
and when the recovery succeeds the terminal frame is the final frame of
the recovered event. -/
theorem streamFinish_spec (accum : String) :
    wellFormedB (streamFinish accum).1 = true ∧
    saveContract (streamFinish accum).1 (streamFinish accum).2 := by
  unfold streamFinish
  cases hrec : recoverJson accum with
  | some j => exact ⟨by simp [wellFormedB, Frame.isLog, Frame.isTerminal],
      by simp [saveContract]⟩
  | none => exact ⟨by simp [wellFormedB, Frame.isLog, Frame.isTerminal],
      by simp [saveContract]⟩

theorem isLog_append (ls1 ls2 : List Frame)
    (h1 : ∀ f ∈ ls1, f.isLog = true) (h2 : ∀ f ∈ ls2, f.isLog = true) :
    ∀ f ∈ ls1 ++ ls2, f.isLog = true := by
  intro f hf
  rcases List.mem_append.mp hf with h | h
  · exact h1 f h
  · exact h2 f h

/-- Every stream body the Gemini provider produces is well formed and
obeys the save contract. -/
theorem geminiStreamBody_spec (config : ProviderConfig) (request : ExtractionRequest)
    (chunks : List String) (readError : Option String) :
    wellFormedB (geminiStreamBody config request chunks readError).1 = true ∧
    saveContract (geminiStreamBody config request chunks readError).1
      (geminiStreamBody config request chunks readError).2 := by
  unfold geminiStreamBody
  have hinit : ∀ f ∈ [Frame.log "EXEC" ("[INIT] Provider: GEMINI | Model: " ++ config.model),
      Frame.log "EXEC" ("[HTTP] POST " ++ geminiEndpoint config),
      Frame.log "EXEC" ("[PAYLOAD] image=" ++
        (match request.base64_image with
         | some img => toString (roundKB img.length) ++ "KB"
         | none => "none") ++ " | text=" ++ toString request.ocr_text.length ++ " chars")],
      f.isLog = true := by
    intro f hf
    simp only [List.mem_cons, List.not_mem_nil, or_false] at hf
    rcases hf with h | h | h <;> subst h <;> rfl
  have hall := isLog_append _ _ hinit (isLog_map_synth (streamTokens geminiLineToken chunks))
  cases readError with
  | some m =>
    constructor
    · exact wellFormedB_logs_prepend _ _ hall rfl
    · show saveContract _ _
      unfold saveContract
      rw [List.getLast?_concat]
  | none =>
    have hfin := streamFinish_spec (String.join (streamTokens geminiLineToken chunks))
    constructor
    · exact wellFormedB_logs_prepend _ _ hall hfin.1
    · show saveContract _ _
      have htail := hfin.2
      unfold saveContract at htail ⊢
      cases hlast : (streamFinish (String.join (streamTokens geminiLineToken chunks))).1.getLast? with
      | none => rw [hlast] at htail; exact htail.elim
      | some t =>
        rw [hlast] at htail
        rw [getLast?_append_right _ _ t hlast]
        exact htail

/-- Every stream body the OpenAI-compatible provider produces is well
formed and obeys the save contract. -/
theorem openaiStreamBody_spec (config : ProviderConfig) (request : ExtractionRequest)
    (chunks : List String) (readError : Option String) :
    wellFormedB (openaiStreamBody config request chunks readError).1 = true ∧
    saveContract (openaiStreamBody config request chunks readError).1
      (openaiStreamBody config request chunks readError).2 := by
  unfold openaiStreamBody
  have hinit : ∀ f ∈ [Frame.log "EXEC" ("[INIT] Provider: "
        ++ (if isOllamaUrl config.baseUrl then "OLLAMA" else "OPENAI")
        ++ " | Model: " ++ config.model),
      Frame.log "EXEC" ("[HTTP] POST " ++ openaiEndpoint config)],
      f.isLog = true := by
    intro f hf
    simp only [List.mem_cons, List.not_mem_nil, or_false] at hf
    rcases hf with h | h <;> subst h <;> rfl
  have hall := isLog_append _ _ hinit
    (isLog_map_synth (streamTokens (openaiLineToken (isOllamaUrl config.baseUrl)) chunks))
  cases readError with
  | some m =>
    constructor
    · exact wellFormedB_logs_prepend _ _ hall rfl
    · show saveContract _ _
      unfold saveContract
      rw [List.getLast?_concat]
  | none =>
    have hfin := streamFinish_spec
      (String.join (streamTokens (openaiLineToken (isOllamaUrl config.baseUrl)) chunks))
    constructor
    · exact wellFormedB_logs_prepend _ _ hall hfin.1
    · show saveContract _ _
      have htail := hfin.2
      unfold saveContract at htail ⊢
      cases hlast : (streamFinish (String.join
          (streamTokens (openaiLineToken (isOllamaUrl config.baseUrl)) chunks))).1.getLast? with
      | none => rw [hlast] at htail; exact htail.elim
      | some t =>
        rw [hlast] at htail
        rw [getLast?_append_right _ _ t hlast]
        exact htail


/-- Every frame of the Paddle pre-call phase is a log frame. -/
theorem paddlePrefix_isLog (env : PaddleEnv) (sv : SupervisorState) :
    ∀ f ∈ (paddlePrefix env sv).1, f.isLog = true := by
  intro f hf
  unfold paddlePrefix at hf
  by_cases h1 : paddleCheckHealth env.healthOutcome = true <;>
  by_cases h2a : getStatusActiveTier sv = Tier.eco <;>
  by_cases h2b : getStatusActiveTier (startBridge env.startEnv1 none sv) = Tier.eco <;>
  simp [h1, h2a, h2b] at hf <;>
  first
    | rfl
    | ((repeat' rcases hf with hf | hf) <;> rfl)

/-- Every stream the Paddle provider produces is well formed and obeys
the save contract; totality of the function itself is the no-rejection
property. -/
theorem paddleStreamExtraction_spec (env : PaddleEnv) (request : ExtractionRequest)
    (sv : SupervisorState) :
    wellFormedB (paddleStreamExtraction env request sv).1 = true ∧
    saveContract (paddleStreamExtraction env request sv).1
      (paddleStreamExtraction env request sv).2.2 := by
  have hpre := paddlePrefix_isLog env sv
  unfold paddleStreamExtraction
  cases hocr : env.ocrOutcome with
  | failure m =>
    exact ⟨wellFormedB_logs_prepend _ _ hpre rfl,
      by unfold saveContract; rw [List.getLast?_concat]⟩
  | response st body =>
    by_cases hst : statusOk st = true
    · simp only [hst, if_true]
      cases hj : jsonParse body with
      | none =>
        exact ⟨wellFormedB_logs_prepend _ _ hpre rfl,
          by unfold saveContract; rw [List.getLast?_concat]⟩
      | some j =>
        have hdone : ∀ f ∈ [Frame.log "EXEC" ("[DONE] Bridge returned "
              ++ toString (strOrEmpty (jGet j ("result"))).length ++ " characters."),
            Frame.log "SYNTH" (strOrEmpty (jGet j ("result")))], f.isLog = true := by
          intro f hf
          simp only [List.mem_cons, List.not_mem_nil, or_false] at hf
          rcases hf with h | h <;> subst h <;> rfl
        constructor
        · exact wellFormedB_logs_prepend _ _ (isLog_append _ _ hpre hdone) rfl
        · show saveContract _ _
          unfold saveContract
          rw [List.getLast?_concat]
    · simp only [if_neg hst]
      exact ⟨wellFormedB_logs_prepend _ _ hpre rfl,
        by unfold saveContract; rw [List.getLast?_concat]⟩

theorem foldl_svcLog_fields (msg : String) : ∀ (l : List Nat) (st : SupervisorState),
    (l.foldl (fun a _ => svcLog a msg) st).bridgeProcess = st.bridgeProcess ∧
    (l.foldl (fun a _ => svcLog a msg) st).persistedTier = st.persistedTier
  | [], _ => ⟨rfl, rfl⟩
  | _ :: l, st => by
    rw [List.foldl_cons]
    exact foldl_svcLog_fields msg l (svcLog st msg)

theorem pollLogs_fields (e : StartEnv) (st : SupervisorState) :
    (pollLogs e st).bridgeProcess = st.bridgeProcess ∧
    (pollLogs e st).persistedTier = st.persistedTier := by
  unfold pollLogs
  have h := foldl_svcLog_fields "⏳ Bridge is loading model weights..."
    (List.range e.pollLoading) st
  cases e.pollReady <;> exact ⟨h.1, h.2⟩

theorem pollLogs_bridgeProcess (e : StartEnv) (st : SupervisorState) :
    (pollLogs e st).bridgeProcess = st.bridgeProcess := (pollLogs_fields e st).1

theorem pollLogs_persistedTier (e : StartEnv) (st : SupervisorState) :
    (pollLogs e st).persistedTier = st.persistedTier := (pollLogs_fields e st).2

/-- Observable effect of startBridge on the process handle and the
persisted tier: a live healthy process short-circuits everything, and
otherwise the process is respawned under the explicit tier (or the
persisted tier when omitted); the persisted config is never written by
start. -/
theorem startBridge_fields (e : StartEnv) (tier? : Option Tier) (s : SupervisorState) :
    (startBridge e tier? s).persistedTier = s.persistedTier ∧
    (startBridge e tier? s).bridgeProcess =
      (if s.bridgeProcess.isSome && e.probeOk then s.bridgeProcess
       else some (tier?.getD (getStatusActiveTier s))) := by
  unfold startBridge
  by_cases hg : (s.bridgeProcess.isSome && e.probeOk) = true
  · rw [if_pos hg, if_pos hg]
    exact ⟨rfl, rfl⟩
  · rw [if_neg hg, if_neg hg]
    refine ⟨?_, ?_⟩
    · rw [pollLogs_persistedTier]
      rfl
    · rw [pollLogs_bridgeProcess]
      rfl

/-- Observable effect of setActiveTier: the tier is always persisted,
and the process is respawned under the new tier exactly when no live
healthy process exists; a live process passing the health probe keeps
running untouched. -/
theorem setActiveTier_fields (e : StartEnv) (t : Tier) (s : SupervisorState) :
    (setActiveTier e t s).persistedTier = some t ∧
    (setActiveTier e t s).bridgeProcess =
      (if s.bridgeProcess.isSome && e.probeOk then s.bridgeProcess else some t) := by
  unfold setActiveTier
  have h := startBridge_fields e (some t)
    (svcLog { s with persistedTier := some t } ("🔄 Switching to tier: " ++ tierUpper t))
  constructor
  · rw [h.1]
    rfl
  · rw [h.2]
    rfl

/-- Every stream the Gemini provider actually produces is well formed
and obeys the save contract (pre-stream failures produce no stream). -/
theorem geminiStreamExtraction_spec (config : ProviderConfig) (request : ExtractionRequest)
    (net : HttpStreamOutcome) :
    streamOk (geminiStreamExtraction config request net) = true ∧
    saveContractRes (geminiStreamExtraction config request net) := by
  cases net with
  | failure m => exact ⟨rfl, trivial⟩
  | response st chunks readError =>
    unfold geminiStreamExtraction
    dsimp only
    by_cases hst : statusOk st = true
    · rw [if_pos hst]
      exact geminiStreamBody_spec config request chunks readError
    · rw [if_neg hst]
      exact ⟨rfl, trivial⟩

/-- Every stream the OpenAI-compatible provider actually produces is
well formed and obeys the save contract. -/
theorem openaiStreamExtraction_spec (config : ProviderConfig) (request : ExtractionRequest)
    (net : HttpStreamOutcome) :
    streamOk (openaiStreamExtraction config request net) = true ∧
    saveContractRes (openaiStreamExtraction config request net) := by
  cases net with
  | failure m => exact ⟨rfl, trivial⟩
  | response st chunks readError =>
    unfold openaiStreamExtraction
    dsimp only
    by_cases hst : statusOk st = true
    · rw [if_pos hst]
      exact openaiStreamBody_spec config request chunks readError
    · rw [if_neg hst]
      exact ⟨rfl, trivial⟩

/-- Every stream any provider actually produces is well formed and
obeys the save contract. -/
theorem providerStream_spec (k : ProviderKind) (config : ProviderConfig)
    (request : ExtractionRequest) (env : NetEnv) (sv : SupervisorState) :
    streamOk (providerStream k config request env sv).1 = true ∧
    saveContractRes (providerStream k config request env sv).1 := by
  cases k with
  | gemini => exact geminiStreamExtraction_spec config request env.http
  | openai => exact openaiStreamExtraction_spec config request env.http
  | paddle => exact paddleStreamExtraction_spec env.paddle request sv

/-- For every strategy other than the chained one, orchestration is the
bare provider stream. -/
theorem orchestrate_direct (strategy : String) (config : ProviderConfig)
    (request : ExtractionRequest) (env : OrchEnv) (sv : SupervisorState)
    (h : ¬(strategy = "B")) :
    orchestrateExtraction strategy config request env sv
      = providerStream (getProvider config) config request env.direct sv := by
  unfold orchestrateExtraction
  by_cases hc : strategy = "C"
  · rw [if_pos hc]
  · rw [if_neg hc, if_neg h]

/-- Chained-mode output decomposition: the produced stream is exactly
the relayed Paddle frames followed by the second-stage segment, which
is either the second provider stream or the single caught error frame;
and the saves are the Paddle saves followed by the second-stage
saves. -/
theorem orchestrate_B_decomp (config : ProviderConfig) (request : ExtractionRequest)
    (env : OrchEnv) (sv : SupervisorState) :
    ∃ rest : List Frame,
      framesOf (orchestrateExtraction "B" config request env sv).1
        = (paddleStreamExtraction env.ocr request sv).1 ++ rest ∧
      wellFormedB rest = true ∧
      savesOf (orchestrateExtraction "B" config request env sv).1
        = (paddleStreamExtraction env.ocr request sv).2.2 ++
          savesOf (providerStream (getProvider config) config
            (derivedRequest request (capturedText (paddleStreamExtraction env.ocr request sv).1))
            env.llm (paddleStreamExtraction env.ocr request sv).2.1).1 := by
  unfold orchestrateExtraction
  rw [if_neg (by decide : ¬(("B" : String) = "C")), if_pos rfl]
  have hspec := providerStream_spec (getProvider config) config
    (derivedRequest request (capturedText (paddleStreamExtraction env.ocr request sv).1))
    env.llm (paddleStreamExtraction env.ocr request sv).2.1
  cases hres : (providerStream (getProvider config) config
      (derivedRequest request (capturedText (paddleStreamExtraction env.ocr request sv).1))
      env.llm (paddleStreamExtraction env.ocr request sv).2.1) with
  | mk r sv2 =>
    cases r with
    | ok p =>
      refine ⟨p.1, ?_⟩
      rw [hres] at hspec
      unfold streamOk at hspec
      constructor
      · simp [framesOf, hres]
      constructor
      · exact hspec.1
      · simp [savesOf, hres]
    | error m =>
      refine ⟨[Frame.error m], ?_⟩
      constructor
      · simp [framesOf, hres]
      constructor
      · rfl
      · simp [savesOf, hres]

theorem wellFormedB_ne_nil (fs : List Frame) (h : wellFormedB fs = true) : fs ≠ [] := by
  intro he
  subst he
  simp [wellFormedB] at h

theorem capturedText_foldl_final : ∀ (fs : List Frame) (j : Json) (acc : String),
    fs.getLast? = some (Frame.final j) →
    fs.foldl (fun acc f =>
      match f with
      | Frame.final ev => strOrEmpty (jGet ev ("extracted_text"))
      | _ => acc) acc = strOrEmpty (jGet j ("extracted_text"))
  | [], _, _, h => by simp at h
  | f :: fs, j, acc, h => by
    cases fs with
    | nil =>
      have : f = Frame.final j := by
        simpa [List.getLast?] using h
      subst this
      rfl
    | cons g gs =>
      have h2 : (g :: gs).getLast? = some (Frame.final j) := by
        rw [← h]
        exact (List.getLast?_cons_cons).symm
      rw [List.foldl_cons]
      exact capturedText_foldl_final (g :: gs) j _ h2

/-- Capture of the chained-mode relay on a stream ending in a final
frame: the captured text is that final event extracted_text string. -/
theorem capturedText_of_final (fs : List Frame) (j : Json)
    (h : fs.getLast? = some (Frame.final j)) :
    capturedText fs = strOrEmpty (jGet j ("extracted_text")) := by
  unfold capturedText
  exact capturedText_foldl_final fs j "" h

theorem capturedText_foldl_no_final : ∀ (fs : List Frame),
    (∀ f ∈ fs, ∀ ev, ¬(f = Frame.final ev)) →
    fs.foldl (fun acc f =>
      match f with
      | Frame.final ev => strOrEmpty (jGet ev ("extracted_text"))
      | _ => acc) "" = ""
  | [], _ => rfl
  | f :: fs, h => by
    have hf := h f (List.mem_cons_self _ _)
    have hrest : ∀ g ∈ fs, ∀ ev, ¬(g = Frame.final ev) :=
      fun g hg => h g (List.mem_cons_of_mem _ hg)
    rw [List.foldl_cons]
    cases f with
    | log t m => exact capturedText_foldl_no_final fs hrest
    | error m => exact capturedText_foldl_no_final fs hrest
    | final ev => exact absurd rfl (hf ev)

/-- A list of log frames closed by an error frame holds no final
frame. -/
theorem no_final_of_logs_error (ls : List Frame) (m : String)
    (h : ∀ f ∈ ls, f.isLog = true) :
    ∀ f ∈ ls ++ [Frame.error m], ∀ ev, ¬(f = Frame.final ev) := by
  intro f hf ev he
  subst he
  rcases List.mem_append.mp hf with hl | hr
  · have := h _ hl
    simp [Frame.isLog] at this
  · simp at hr

/-- A Paddle stream that terminates with an error frame captured no
text: the chained relay leaves the OCR data empty. -/
theorem paddle_error_captures_nothing (env : PaddleEnv) (request : ExtractionRequest)
    (sv : SupervisorState) (m : String)
    (h : (paddleStreamExtraction env request sv).1.getLast? = some (Frame.error m)) :
    capturedText (paddleStreamExtraction env request sv).1 = "" := by
  have hpre := paddlePrefix_isLog env sv
  unfold capturedText
  unfold paddleStreamExtraction at h ⊢
  cases hocr : env.ocrOutcome with
  | failure m2 =>
    exact capturedText_foldl_no_final _ (no_final_of_logs_error _ m2 hpre)
  | response st body =>
    by_cases hst : statusOk st = true
    · simp only [hst, if_true] at h ⊢
      cases hj : jsonParse body with
      | none =>
        exact capturedText_foldl_no_final _ (no_final_of_logs_error _ jsonParseErrorMsg hpre)
      | some j =>
        rw [hocr] at h
        simp only [hst, if_true, hj] at h
        rw [List.getLast?_concat] at h
        exact absurd h (by simp)
    · simp only [if_neg hst] at h ⊢
      exact capturedText_foldl_no_final _ (no_final_of_logs_error _ _ hpre)

/-- Tail of a Paddle stream when the bridge fetch rejects. -/
theorem paddle_failure_tail (env : PaddleEnv) (request : ExtractionRequest)
    (sv : SupervisorState) (m : String) (h : env.ocrOutcome = HttpOutcome.failure m) :
    (paddleStreamExtraction env request sv).1.getLast? = some (Frame.error m) := by
  unfold paddleStreamExtraction
  rw [h]
  exact List.getLast?_concat _

/-- Tail of a Paddle stream when the bridge answers with a non-2xx
status. -/
theorem paddle_badstatus_tail (env : PaddleEnv) (request : ExtractionRequest)
    (sv : SupervisorState) (st : Nat) (body : String)
    (h : env.ocrOutcome = HttpOutcome.response st body) (hst : statusOk st = false) :
    (paddleStreamExtraction env request sv).1.getLast?
      = some (Frame.error ("Paddle Bridge returned " ++ toString st ++ ": " ++ body)) := by
  unfold paddleStreamExtraction
  rw [h]
  have hn : ¬(statusOk st = true) := by simp [hst]
  dsimp only
  rw [if_neg hn]
  exact List.getLast?_concat _

/-- Demo provider configuration selecting the OpenAI-compatible
provider (not the Paddle model, not a Google base URL). -/
def demoConfig : ProviderConfig :=
  { baseUrl := "http://localhost:8080", apiKey := none, model := "demo-model" }

/-- Demo provider configuration selecting the Gemini provider. -/
def demoGeminiConfig : ProviderConfig :=
  { baseUrl := "https://generativelanguage.googleapis.com", apiKey := some "k",
    model := "gemini-2.0-flash" }

/-- Demo extraction request carrying an image. -/
def demoRequest : ExtractionRequest :=
  { ocr_text := "", image_context := none, today_date := none,
    base64_image := some "imgbytes", options := [] }

/-- Demo supervisor state: bridge running under the lite tier, lite
persisted. -/
def demoSupervisor : SupervisorState :=
  { bridgeProcess := some Tier.lite, persistedTier := some Tier.lite, bridgeLogs := [] }

/-- Demo start environment: probe passes, poll converges at once. -/
def demoStart : StartEnv := { probeOk := true, pollLoading := 0, pollReady := true }

/-- Healthy bridge health body. -/
def demoHealthBody : String := "\x7b\"status\":\"ok\"\x7d"

/-- Bridge OCR body carrying the extracted text. -/
def demoOcrBody : String := "\x7b\"result\":\"Coffee $4.50\"\x7d"

/-- Demo Paddle environment: healthy bridge, successful OCR call. -/
def demoPaddleOK : PaddleEnv :=
  { healthOutcome := HttpOutcome.response 200 demoHealthBody,
    startEnv1 := demoStart, switchStartEnv := demoStart, startEnv2 := demoStart,
    ocrOutcome := HttpOutcome.response 200 demoOcrBody, elapsedMs := 0 }

/-- Demo Paddle environment whose OCR fetch rejects. -/
def demoPaddleFail : PaddleEnv :=
  { demoPaddleOK with ocrOutcome := HttpOutcome.failure ("fetch failed") }

/-- One SSE chunk of an OpenAI-compatible backend streaming the token
of a small JSON object. -/
def demoLlmChunk : String :=
  "data: \x7b\"choices\":[\x7b\"delta\":\x7b\"content\":\"\x7b\\\"t\\\":1\x7d\"\x7d\x7d]\x7d\n"

/-- Demo network environment: a 2xx streaming response with one chunk,
and the healthy Paddle environment. -/
def demoNet : NetEnv :=
  { http := HttpStreamOutcome.response 200 [demoLlmChunk] none, paddle := demoPaddleOK }

/-- Demo chained-mode environment with a successful OCR stage. -/
def demoOrchB : OrchEnv := { direct := demoNet, ocr := demoPaddleOK, llm := demoNet }

/-- Demo chained-mode environment whose OCR stage fails. -/
def demoOrchBErr : OrchEnv := { direct := demoNet, ocr := demoPaddleFail, llm := demoNet }

/-- Demo supervisor state with a live eco-tier process and eco
persisted. -/
def demoSupervisorEco : SupervisorState :=
  { bridgeProcess := some Tier.eco, persistedTier := some Tier.eco, bridgeLogs := [] }

/-- C5: the claim that setActiveTier persists the tier and then
unconditionally restarts the supervised process under that tier is
false: when a live process passes the pre-start health probe, start
returns without restarting, so the tier is persisted but the process
keeps running under its old tier. -/
theorem claimC5_cex :
    (setActiveTier demoStart Tier.pro demoSupervisorEco).persistedTier = some Tier.pro ∧
    (setActiveTier demoStart Tier.pro demoSupervisorEco).bridgeProcess = some Tier.eco ∧
    ¬((setActiveTier demoStart Tier.pro demoSupervisorEco).bridgeProcess
        = some Tier.pro) := by
  refine ⟨by decide, by decide, by decide⟩

/-- C5 amended: setActiveTier persists the given tier and then calls
start(tier), which tears down and respawns the process under that tier
only when no live process passes the health probe; a live healthy
process is left running under its previous tier. -/
theorem claimC5_amended : ∀ (e : StartEnv) (t : Tier) (s : SupervisorState),
    (setActiveTier e t s).persistedTier = some t ∧
    (setActiveTier e t s).bridgeProcess =
      (if s.bridgeProcess.isSome && e.probeOk then s.bridgeProcess else some t) :=
  fun e t s => setActiveTier_fields e t s

/-- C6: for every accumulated buffer consisting of a JSON object
surrounded by prose that contributes no further brace or bracket
characters, the stream-end greedy JSON recovery extracts exactly the
embedded object substring and parses it. -/
theorem claimC6_thm (pre mid post : List Char) (j : Json)
    (hpre : ∀ c ∈ pre, ¬(c = lcurly) ∧ ¬(c = '['))
    (hpost : rcurly ∉ post)
    (hparse : jsonParseChars (lcurly :: (mid ++ [rcurly])) = some j) :
    recoverJsonChars (pre ++ (lcurly :: (mid ++ [rcurly])) ++ post) = some j := by
  rw [recoverJsonChars_embedded pre mid post hpre hpost, hparse]

/-- C6 witness: the accumulated text of the spec example recovers the
embedded invoice object, whose amount parses as the exact decimal 12.5
(mantissa 125, exponent -1). -/
theorem claimC6_witness :
    recoverJsonChars (("Sure! ").data
        ++ (lcurly :: (("\"title\":\"Invoice\",\"amount\":12.5").data ++ [rcurly]))
        ++ (" Thanks.").data)
      = some (Json.obj [("title", Json.str "Invoice"), ("amount", Json.num 125 (-1))]) :=
  claimC6_thm _ _ _ _ (by decide) (by decide) (by rfl)

/-- C7: the supervisor log ring buffer never exceeds 100 entries, and
eviction is drop-oldest: a sequence of 150 pushes leaves exactly the
last 100 entries in order. -/
theorem claimC7_thm : ∀ entries : List String,
    (List.foldl pushLog [] entries).length ≤ 100 ∧
    (entries.length = 150 → List.foldl pushLog [] entries = entries.drop 50) := by
  intro entries
  have h := foldl_pushLog_drop entries [] (by simp)
  constructor
  · rw [h]
    simp only [List.length_drop, List.nil_append, List.length_nil]
    omega
  · intro h150
    rw [h, h150]
    norm_num

/-- C7 witness: 150 concrete pushes leave the last 100. -/
theorem claimC7_witness :
    (List.foldl pushLog [] (List.replicate 150 "x")).length ≤ 100 ∧
    List.foldl pushLog [] (List.replicate 150 "x") = (List.replicate 150 "x").drop 50 :=
  ⟨(claimC7_thm _).1, (claimC7_thm _).2 (by simp)⟩

/-- C9: for every provider variant, checkHealth returns false when the
probe fetch rejects (connection refused and timeout are both
rejections of the fetch promise) and when the backend answers HTTP
500; and it is a total boolean function, so it never raises. -/
theorem claimC9_thm :
    (∀ config m, geminiCheckHealth config (HttpOutcome.failure m) = false) ∧
    (∀ config body, geminiCheckHealth config (HttpOutcome.response 500 body) = false) ∧
    (∀ config m, openaiCheckHealth config (HttpOutcome.failure m) = false) ∧
    (∀ config body, openaiCheckHealth config (HttpOutcome.response 500 body) = false) ∧
    (∀ m, paddleCheckHealth (HttpOutcome.failure m) = false) ∧
    (∀ body, paddleCheckHealth (HttpOutcome.response 500 body) = false) ∧
    (∀ config o, geminiCheckHealth config o = true ∨ geminiCheckHealth config o = false) ∧
    (∀ config o, openaiCheckHealth config o = true ∨ openaiCheckHealth config o = false) ∧
    (∀ o, paddleCheckHealth o = true ∨ paddleCheckHealth o = false) := by
  refine ⟨fun _ _ => rfl, fun _ _ => rfl, fun _ _ => rfl, fun _ _ => rfl,
    fun _ => rfl, fun _ => rfl, ?_, ?_, ?_⟩
  · intro config o
    cases h : geminiCheckHealth config o
    · exact Or.inr rfl
    · exact Or.inl rfl
  · intro config o
    cases h : openaiCheckHealth config o
    · exact Or.inr rfl
    · exact Or.inl rfl
  · intro o
    cases h : paddleCheckHealth o
    · exact Or.inr rfl
    · exact Or.inl rfl

/-- C10: PaddleProvider.streamExtraction always returns a stream and
never rejects (it is a total function in this embedding, mirroring the
try/catch around the whole stream body); every produced stream is well
formed, a rejected bridge fetch ends the stream with exactly that error
frame, and a non-2xx bridge response ends it with the formatted bridge
error frame. -/
theorem claimC10_thm : ∀ (env : PaddleEnv) (request : ExtractionRequest)
    (sv : SupervisorState),
    wellFormedB (paddleStreamExtraction env request sv).1 = true ∧
    (∀ m, env.ocrOutcome = HttpOutcome.failure m →
      (paddleStreamExtraction env request sv).1.getLast? = some (Frame.error m)) ∧
    (∀ st body, env.ocrOutcome = HttpOutcome.response st body → statusOk st = false →
      (paddleStreamExtraction env request sv).1.getLast?
        = some (Frame.error ("Paddle Bridge returned " ++ toString st ++ ": " ++ body))) := by
  intro env request sv
  exact ⟨(paddleStreamExtraction_spec env request sv).1,
    fun m h => paddle_failure_tail env request sv m h,
    fun st body h hst => paddle_badstatus_tail env request sv st body h hst⟩

/-- C10 witness: the demo environment with a rejected bridge fetch
yields a well-formed stream ending in exactly that error frame. -/
theorem claimC10_witness :
    wellFormedB (paddleStreamExtraction demoPaddleFail demoRequest demoSupervisor).1 = true ∧
    (paddleStreamExtraction demoPaddleFail demoRequest demoSupervisor).1.getLast?
      = some (Frame.error ("fetch failed")) :=
  ⟨(claimC10_thm demoPaddleFail demoRequest demoSupervisor).1,
   (claimC10_thm demoPaddleFail demoRequest demoSupervisor).2.1 ("fetch failed") rfl⟩

/-- C8: the derived second-stage request of chained mode is the
original request with ocr_text replaced by the captured text and the
image field cleared, all other fields unchanged; and the text captured
from a Paddle stream ending in a final frame is exactly that final
event extracted_text. -/
theorem claimC8_thm :
    (∀ (request : ExtractionRequest) (t : String),
      (derivedRequest request t).ocr_text = t ∧
      (derivedRequest request t).base64_image = none ∧
      (derivedRequest request t).image_context = request.image_context ∧
      (derivedRequest request t).today_date = request.today_date ∧
      (derivedRequest request t).options = request.options) ∧
    (∀ (env : PaddleEnv) (request : ExtractionRequest) (sv : SupervisorState) (j : Json),
      (paddleStreamExtraction env request sv).1.getLast? = some (Frame.final j) →
      capturedText (paddleStreamExtraction env request sv).1
        = strOrEmpty (jGet j ("extracted_text"))) := by
  constructor
  · intro request t
    exact ⟨rfl, rfl, rfl, rfl, rfl⟩
  · intro env request sv j h
    exact capturedText_of_final _ j h

/-- Final event of the demo Paddle run. -/
def demoFinalEvent : Json := Json.obj
  [("title", Json.str "OCR Extraction"), ("extracted_text", Json.str "Coffee $4.50"),
   ("source", Json.str "PaddleOCR"), ("generation_time_ms", Json.num 0 0)]

/-- C8 witness: a first-stage result with extracted_text Coffee $4.50
is captured verbatim, and the derived request carries it as ocr_text
with the image absent. -/
theorem claimC8_witness :
    capturedText (paddleStreamExtraction demoPaddleOK demoRequest demoSupervisor).1
      = "Coffee $4.50" ∧
    (derivedRequest demoRequest "Coffee $4.50").ocr_text = "Coffee $4.50" ∧
    (derivedRequest demoRequest "Coffee $4.50").base64_image = none := by
  refine ⟨?_, (claimC8_thm.1 demoRequest ("Coffee $4.50")).1,
    (claimC8_thm.1 demoRequest ("Coffee $4.50")).2.1⟩
  have h := claimC8_thm.2 demoPaddleOK demoRequest demoSupervisor demoFinalEvent (by rfl)
  rw [h]
  rfl

/-- C3 counterexample: a non-2xx backend response makes the Gemini
provider raise before any stream exists, so the failure propagates as
a rejection instead of a terminal error frame on a stream. -/
theorem claimC3_cex :
    geminiStreamExtraction demoGeminiConfig demoRequest
        (HttpStreamOutcome.response 500 ["backend boom"] none)
      = Except.error ("Gemini API returned 500: backend boom") := by
  rfl

/-- C3 amended: for the cloud providers a fetch rejection or a non-2xx
response happens before the stream is constructed and propagates as a
rejection of streamExtraction, which the direct orchestration paths
pass on to the caller; every stream actually produced is well formed
(failures after streaming starts and all Paddle failures are
normalized into a terminal error frame). -/
theorem claimC3_amended :
    (∀ config request m, geminiStreamExtraction config request (HttpStreamOutcome.failure m)
        = Except.error m) ∧
    (∀ config request st chunks re, statusOk st = false →
      geminiStreamExtraction config request (HttpStreamOutcome.response st chunks re)
        = Except.error ("Gemini API returned " ++ toString st ++ ": " ++ String.join chunks)) ∧
    (∀ config request m, openaiStreamExtraction config request (HttpStreamOutcome.failure m)
        = Except.error m) ∧
    (∀ config request st chunks re, statusOk st = false →
      openaiStreamExtraction config request (HttpStreamOutcome.response st chunks re)
        = Except.error ("OpenAI-Compatible API returned " ++ toString st ++ ": "
            ++ String.join chunks)) ∧
    (∀ k config request env sv, streamOk (providerStream k config request env sv).1 = true) ∧
    (∀ strategy config request env sv, ¬(strategy = "B") →
      orchestrateExtraction strategy config request env sv
        = providerStream (getProvider config) config request env.direct sv) := by
  refine ⟨fun _ _ _ => rfl, ?_, fun _ _ _ => rfl, ?_, ?_, ?_⟩
  · intro config request st chunks re hst
    unfold geminiStreamExtraction
    dsimp only
    rw [if_neg (by simp [hst])]
  · intro config request st chunks re hst
    unfold openaiStreamExtraction
    dsimp only
    rw [if_neg (by simp [hst])]
  · intro k config request env sv
    exact (providerStream_spec k config request env sv).1
  · intro strategy config request env sv h
    exact orchestrate_direct strategy config request env sv h

/-- C3 witness: a 503 response rejects with the formatted message, and
strategy A hands the bare provider stream through. -/
theorem claimC3_witness :
    statusOk 503 = false ∧
    geminiStreamExtraction demoGeminiConfig demoRequest
        (HttpStreamOutcome.response 503 ["x"] none)
      = Except.error ("Gemini API returned 503: x") ∧
    ¬(("A" : String) = "B") ∧
    orchestrateExtraction "A" demoConfig demoRequest demoOrchB demoSupervisor
      = providerStream (getProvider demoConfig) demoConfig demoRequest demoOrchB.direct
          demoSupervisor := by
  refine ⟨by decide,
    claimC3_amended.2.1 demoGeminiConfig demoRequest 503 ["x"] none (by decide),
    by decide,
    claimC3_amended.2.2.2.2.2 "A" demoConfig demoRequest demoOrchB demoSupervisor (by decide)⟩

/-- C1 counterexample: a successful chained-mode run relays the OCR
final frame and then streams the second stage after it, so the produced
stream is not zero-or-more logs followed by one terminal frame. -/
theorem claimC1_cex :
    wellFormedB (framesOf (orchestrateExtraction "B" demoConfig demoRequest demoOrchB
      demoSupervisor).1) = false := by
  rfl

/-- C1 amended: every stream a single provider produces is well formed
(zero or more logs, then exactly one terminal frame, nothing after);
orchestration passes that through unchanged in every strategy other
than B (A, C and any other value all take the direct path); in
chained mode the output is the whole first-stage stream (terminal frame
included) followed by a second well-formed segment, so it contains two
terminal frames rather than one. -/
theorem claimC1_amended :
    (∀ k config request env sv, streamOk (providerStream k config request env sv).1 = true) ∧
    (∀ strategy config request env sv, ¬(strategy = "B") →
      streamOk (orchestrateExtraction strategy config request env sv).1 = true) ∧
    (∀ config request env sv, ∃ rest : List Frame,
      framesOf (orchestrateExtraction "B" config request env sv).1
        = (paddleStreamExtraction env.ocr request sv).1 ++ rest ∧
      wellFormedB (paddleStreamExtraction env.ocr request sv).1 = true ∧
      wellFormedB rest = true) := by
  refine ⟨?_, ?_, ?_⟩
  · intro k config request env sv
    exact (providerStream_spec k config request env sv).1
  · intro strategy config request env sv h
    rw [orchestrate_direct strategy config request env sv h]
    exact (providerStream_spec _ config request env.direct sv).1
  · intro config request env sv
    obtain ⟨rest, h1, h2, _⟩ := orchestrate_B_decomp config request env sv
    exact ⟨rest, h1, (paddleStreamExtraction_spec env.ocr request sv).1, h2⟩

/-- C2 counterexample: with a first stage that ends in an error frame
and no final frame, chained mode still runs the second stage, and the
output stream contains a final frame after the relayed error. -/
theorem claimC2_cex :
    (paddleStreamExtraction demoOrchBErr.ocr demoRequest demoSupervisor).1.getLast?
      = some (Frame.error ("fetch failed")) ∧
    hasFinal (framesOf (orchestrateExtraction "B" demoConfig demoRequest demoOrchBErr
      demoSupervisor).1) = true := by
  exact ⟨rfl, rfl⟩

/-- C2 amended: when the first stage terminates with an error frame,
chained mode captures no OCR text (the derived request carries the
empty string) and still invokes the second stage: the output stream
strictly extends the relayed first-stage frames by a nonempty
second-stage segment. -/
theorem claimC2_amended : ∀ (config : ProviderConfig) (request : ExtractionRequest)
    (env : OrchEnv) (sv : SupervisorState) (m : String),
    (paddleStreamExtraction env.ocr request sv).1.getLast? = some (Frame.error m) →
    capturedText (paddleStreamExtraction env.ocr request sv).1 = "" ∧
    ∃ rest : List Frame, ¬(rest = []) ∧
      framesOf (orchestrateExtraction "B" config request env sv).1
        = (paddleStreamExtraction env.ocr request sv).1 ++ rest := by
  intro config request env sv m h
  constructor
  · exact paddle_error_captures_nothing env.ocr request sv m h
  · obtain ⟨rest, h1, h2, _⟩ := orchestrate_B_decomp config request env sv
    exact ⟨rest, wellFormedB_ne_nil rest h2, h1⟩

/-- C2 witness: the demo error-stage environment satisfies the
hypothesis and captures the empty string. -/
theorem claimC2_witness :
    (paddleStreamExtraction demoOrchBErr.ocr demoRequest demoSupervisor).1.getLast?
      = some (Frame.error ("fetch failed")) ∧
    capturedText (paddleStreamExtraction demoOrchBErr.ocr demoRequest demoSupervisor).1
      = "" := by
  refine ⟨rfl, (claimC2_amended demoConfig demoRequest demoOrchBErr demoSupervisor
    ("fetch failed") rfl).1⟩

/-- C4 counterexample: a successful chained-mode request calls save
twice, once per stage, not exactly once per request. -/
theorem claimC4_cex :
    (savesOf (orchestrateExtraction "B" demoConfig demoRequest demoOrchB
      demoSupervisor).1).length = 2 := by
  rfl

/-- C4 amended: save is called exactly once per provider stage: every
produced provider stream ending in a final frame saves exactly that
final event, an error-terminated stream saves nothing, and a chained
request concatenates the saves of its two stages. -/
theorem claimC4_amended :
    (∀ k config request env sv, saveContractRes (providerStream k config request env sv).1) ∧
    (∀ config request env sv,
      savesOf (orchestrateExtraction "B" config request env sv).1
        = (paddleStreamExtraction env.ocr request sv).2.2 ++
          savesOf (providerStream (getProvider config) config
            (derivedRequest request
              (capturedText (paddleStreamExtraction env.ocr request sv).1))
            env.llm (paddleStreamExtraction env.ocr request sv).2.1).1) := by
  refine ⟨?_, ?_⟩
  · intro k config request env sv
    exact (providerStream_spec k config request env sv).2
  · intro config request env sv
    obtain ⟨_, _, _, h3⟩ := orchestrate_B_decomp config request env sv
    exact h3
